import Mathlib

/-!
Shallow embedding of the wind-atlas aggregation pipeline
(`src/data/wind_atlas.py`) and of the viewer constants it must match
(`src/service/app.py`).

Modelling conventions:
* Floating-point NaN / NaT sentinels are `Option` `none`; finite floats are `ℚ`.
* `pandas.groupby(["station", "period"])` is modelled by collecting the
  distinct (station, period) keys of the rows whose station and timestamp are
  both present (groupby drops rows whose key contains NaN/NaT), sorting them
  ascending, and filtering the row list per key.
* `numpy` reductions `nanmean`, `nanpercentile` (linear interpolation) and the
  empty-mean NaN are modelled over `ℚ`; `x % 360` for floats follows the
  floor-based Python semantics.
* `scipy.stats.weibull_min.fit(v, floc=0)` is an external numerical optimizer;
  it enters the embedding as a function parameter `fitML` returning the scipy
  triple (shape, loc, scale) for the positive sample, with the location pinned
  to 0 by the `floc=0` call site.
* `.astype(int)` applied to a NaN float yields the minimal int64 on the
  platforms numpy supports; `value_counts(normalize=True)` therefore keeps
  those entries in its denominator.
-/

set_option maxRecDepth 40000

namespace WindAtlas

/-- Aggregation granularity: the `--freq` option of `build_wind_atlas.py`. -/
inductive Freq
  | annual
  | monthly
deriving DecidableEq

/-- A parsed timestamp, reduced to the calendar fields that
`Series.dt.to_period` consumes for annual/monthly periods. -/
structure Timestamp where
  year : Nat
  month : Nat
deriving DecidableEq

/-- One row of the ingested observation table.  `none` models a NaN value
(or NaT for the timestamp). -/
structure Observation where
  station : Option Nat
  datetime : Option Timestamp
  wspd : Option ℚ
  wdir : Option ℚ
deriving DecidableEq

/-- The observation table handed to `build_atlas`: its column names, its rows,
and the in-place `period` column that `build_atlas` assigns
(`df["period"] = ...`).  On input `periodCol` is `none` (no such column). -/
structure DataFrame where
  columns : List String
  rows : List Observation
  periodCol : Option (List (Option (Nat × Nat)))
deriving DecidableEq

/-- The values of a float column that are present (drops NaN). -/
def validValues (xs : List (Option ℚ)) : List ℚ :=
  xs.filterMap id

/-- `np.nanmean`: mean of the non-NaN values, NaN on an empty sample. -/
def nanmean (xs : List (Option ℚ)) : Option ℚ :=
  let v := validValues xs
  if v.length = 0 then none else some (v.sum / (v.length : ℚ))

/-- `np.nanpercentile` with the default linear interpolation between order
statistics: NaN when no valid value exists. -/
def nanpercentile (xs : List (Option ℚ)) (q : ℚ) : Option ℚ :=
  let v := List.insertionSort (fun a b : ℚ => a ≤ b) (validValues xs)
  if v.length = 0 then none
  else
    let h : ℚ := ((v.length : ℚ) - 1) * q / 100
    let i : Nat := (⌊h⌋).toNat
    let lo := v.getD i 0
    let hi := v.getD (min (i + 1) (v.length - 1)) 0
    some (lo + (h - (i : ℚ)) * (hi - lo))

/-- `fit_weibull` from `wind_atlas.py`: keep the non-NaN strictly positive
speeds, refuse to fit below 20 points, otherwise call
`weibull_min.fit(speeds, floc=0)` (the parameter `fitML`, returning scipy's
(shape, loc, scale)) and return (shape, scale). -/
def fit_weibull (fitML : List ℚ → ℚ × ℚ × ℚ) (speeds : List (Option ℚ)) :
    Option ℚ × Option ℚ :=
  let v := (validValues speeds).filter (fun x => 0 < x)
  if v.length < 20 then (none, none)
  else
    let r := fitML v
    (some r.1, some r.2.2)

/-- `mean_power_density` from `wind_atlas.py`:
`0.5 * rho * np.mean(speeds ** 3)` over the non-NaN speeds, NaN when the
sample is empty. -/
def mean_power_density (speeds : List (Option ℚ)) (rho : ℚ) : Option ℚ :=
  let v := validValues speeds
  if v.length = 0 then none
  else some ((1 / 2) * rho * ((v.map (fun x => x ^ 3)).sum / (v.length : ℚ)))

/-- Python float `x % 360`: the representative of `x` mod 360 in `[0, 360)`
(the result carries the sign of the divisor). -/
def fmod360 (x : ℚ) : ℚ := x - 360 * (⌊x / 360⌋ : ℚ)

/-- The int64 that `.astype(int)` produces from a NaN float. -/
def nanCastInt : Int := -(2 ^ 63)

/-- `np.floor((deg % 360) / 22.5).astype(int)` applied to one entry of the
direction column; a NaN direction is cast to `nanCastInt`. -/
def binIdx : Option ℚ → Int
  | some d => ⌊fmod360 d / (45 / 2 : ℚ)⌋
  | none => nanCastInt

/-- `int(labels[i])` for `labels = np.arange(0, 360, 22.5)`: truncation of
`i * 22.5`. -/
def binLabel (i : Nat) : Nat := i * 45 / 2

/-- The normalized frequency that `value_counts(normalize=True)` reports for
bin `i`: the count of entries whose cast index equals `i`, divided by the
length of the whole direction column (NaN entries were cast to `nanCastInt`
and stay in the denominator). -/
def binFreq (degs : List (Option ℚ)) (i : Nat) : ℚ :=
  ((degs.countP (fun d => binIdx d = (i : Int))) : ℚ) / ((degs.length : ℚ))

/-- `direction_bins` from `wind_atlas.py` with `bins = 16`: the association
list from integer bin label to normalized frequency, in bin order. -/
def direction_bins (degs : List (Option ℚ)) : List (Nat × ℚ) :=
  (List.range 16).map (fun i => (binLabel i, binFreq degs i))

/-- `Series.dt.to_period`: annual periods keep the year (month slot 0),
monthly periods keep year and month. -/
def periodOf (freq : Freq) (t : Timestamp) : Nat × Nat :=
  match freq with
  | .annual => (t.year, 0)
  | .monthly => (t.year, t.month)

/-- The groupby key of one row: present exactly when both the station and the
timestamp are present (groupby drops rows whose key contains NaN/NaT). -/
def rowKey (freq : Freq) (o : Observation) : Option (Nat × Nat × Nat) :=
  match o.station, o.datetime with
  | some s, some t => some (s, periodOf freq t)
  | _, _ => none

/-- Ascending order on groupby keys: station, then year, then month. -/
def keyLe (a b : Nat × Nat × Nat) : Prop :=
  a.1 < b.1 ∨ (a.1 = b.1 ∧ (a.2.1 < b.2.1 ∨ (a.2.1 = b.2.1 ∧ a.2.2 ≤ b.2.2)))

instance : DecidableRel keyLe := fun a b => by
  unfold keyLe; infer_instance

instance : IsTotal (Nat × Nat × Nat) keyLe :=
  ⟨fun a b => by unfold keyLe; omega⟩

instance : IsTrans (Nat × Nat × Nat) keyLe :=
  ⟨fun a b c hab hbc => by unfold keyLe at *; omega⟩

/-- The sorted distinct keys that `df.groupby(["station", "period"])`
iterates over. -/
def groupKeys (freq : Freq) (rows : List Observation) : List (Nat × Nat × Nat) :=
  List.insertionSort keyLe ((rows.filterMap (rowKey freq)).dedup)

/-- The rows of one groupby group. -/
def groupRows (freq : Freq) (rows : List Observation) (k : Nat × Nat × Nat) :
    List Observation :=
  rows.filter (fun o => decide (rowKey freq o = some k))

/-- `'0' + d` for a decimal digit. -/
def digitChar (d : Nat) : Char := Char.ofNat (48 + d)

/-- The four zero-padded decimal digits of a year below 10000 (`%Y`). -/
def pad4 (n : Nat) : List Char :=
  [digitChar (n / 1000 % 10), digitChar (n / 100 % 10),
   digitChar (n / 10 % 10), digitChar (n % 10)]

/-- The two zero-padded decimal digits of a month (`%m`). -/
def pad2 (n : Nat) : List Char :=
  [digitChar (n / 10 % 10), digitChar (n % 10)]

/-- `str(period)` for a pandas Period: `%Y` (zero-padded to four digits, full
decimal expansion for years beyond 9999) for annual periods, `%Y-%m` for
monthly ones. -/
def periodLabel (freq : Freq) (p : Nat × Nat) : String :=
  let y := if p.1 < 10000 then pad4 p.1 else (toString p.1).data
  match freq with
  | .annual => String.mk y
  | .monthly => String.mk (y ++ [Char.ofNat 45] ++ pad2 p.2)

/-- One row of the atlas table (`rec` in `build_atlas`): the summary fields
plus the 16 `(label, frequency)` pairs of the wind rose in bin order. -/
structure SummaryRec where
  station : Nat
  period : String
  n : Nat
  mean : Option ℚ
  p50 : Option ℚ
  p90 : Option ℚ
  weibull_k : Option ℚ
  weibull_c : Option ℚ
  power_density : Option ℚ
  rose : List (Nat × ℚ)
deriving DecidableEq

/-- The summary record that `build_atlas` emits for one groupby key. -/
def recFor (fitML : List ℚ → ℚ × ℚ × ℚ) (freq : Freq) (rho : ℚ)
    (rows : List Observation) (k : Nat × Nat × Nat) : SummaryRec :=
  let g := groupRows freq rows k
  let wspd := g.map (fun o => o.wspd)
  let wdir := g.map (fun o => o.wdir)
  let fw := fit_weibull fitML wspd
  { station := k.1
    period := periodLabel freq k.2
    n := g.length
    mean := nanmean wspd
    p50 := nanpercentile wspd 50
    p90 := nanpercentile wspd 90
    weibull_k := fw.1
    weibull_c := fw.2
    power_density := mean_power_density wspd rho
    rose := direction_bins wdir }

/-- All summary records of one run, in the order groupby yields them. -/
def atlasRows (fitML : List ℚ → ℚ × ℚ × ℚ) (freq : Freq) (rho : ℚ)
    (rows : List Observation) : List SummaryRec :=
  (groupKeys freq rows).map (recFor fitML freq rho rows)

/-- The observable outcome of one `build_atlas` call (with `meta_df = None`):
the caller's frame after the in-place `df["period"] = ...` assignment, and the
persisted atlas file (`some` of its rows when `to_csv` ran, `none` when no
file was written). -/
structure AtlasRun where
  df : DataFrame
  written : Option (List SummaryRec)
deriving DecidableEq

/-- `build_atlas` from `wind_atlas.py` with `meta_df = None`: assign the
`period` column in place on the caller's frame, aggregate each group, and
unconditionally write the atlas CSV. -/
def build_atlas (fitML : List ℚ → ℚ × ℚ × ℚ) (freq : Freq) (rho : ℚ)
    (df : DataFrame) : AtlasRun :=
  { df :=
      { columns :=
          if "period" ∈ df.columns then df.columns
          else df.columns ++ ["period"]
        rows := df.rows
        periodCol := some (df.rows.map (fun o => o.datetime.map (periodOf freq))) }
    written := some (atlasRows fitML freq rho df.rows) }

/-- `DIRECTION_BINS` from `src/service/app.py`. -/
def DIRECTION_BINS : List Nat :=
  [0, 22, 45, 67, 90, 112, 135, 157, 180, 202, 225, 247, 270, 292, 315, 337]

/-- `FREQ_COLS` from `src/service/app.py`: the direction column names the
viewer reads. -/
def FREQ_COLS : List String :=
  DIRECTION_BINS.map (fun d => "dir_" ++ toString d)

/-- A stand-in numerical optimizer used for concrete evaluations. -/
def dummyFit : List ℚ → ℚ × ℚ × ℚ := fun _ => (2, 0, 8)

/-- Strict lexicographic comparison of two character-code sequences. -/
def codesLt : List Nat → List Nat → Bool
  | _, [] => false
  | [], _ :: _ => true
  | a :: as, b :: bs => if a < b then true else if b < a then false else codesLt as bs

/-- Strict lexicographic comparison of two strings by character code. -/
def labelLtB (s t : String) : Bool :=
  codesLt (s.data.map Char.toNat) (t.data.map Char.toNat)

/-- Row order of the persisted atlas table: by station id, then by the
period label string (lexicographically). -/
def recLe (r s : SummaryRec) : Prop :=
  r.station < s.station ∨
    (r.station = s.station ∧ (r.period = s.period ∨ labelLtB r.period s.period = true))

instance : DecidableRel recLe := fun r s => by
  unfold recLe; infer_instance

/-- Concrete observations used to evaluate the pipeline on closed inputs. -/
def t2020 : Timestamp := ⟨2020, 1⟩

def obsFull : Observation := ⟨some 1, some t2020, some 5, some 0⟩

def obsNaN : Observation := ⟨some 1, some t2020, none, none⟩

def obsNoStation : Observation := ⟨none, some t2020, some 3, some 10⟩

def obsNoTime : Observation := ⟨some 1, none, some 4, some 20⟩

def exRows : List Observation := [obsFull, obsNaN]

def exRowsSkip : List Observation := [obsFull, obsNoStation, obsNoTime]

def emptyDf : DataFrame := ⟨["station", "datetime", "wdir", "wspd"], [], none⟩

def exDf : DataFrame := ⟨["station", "datetime", "wdir", "wspd"], exRows, none⟩

/- ──────────────────────── helper lemmas ──────────────────────── -/

lemma length_validValues_add_countP (xs : List (Option ℚ)) :
    (validValues xs).length + xs.countP (fun x => x.isNone) = xs.length := by
  induction xs with
  | nil => simp [validValues]
  | cons a t ih =>
    cases a <;> simp [validValues, List.countP_cons] at * <;> omega

lemma fmod360_bounds (x : ℚ) : 0 ≤ fmod360 x ∧ fmod360 x < 360 := by
  have h1 : ((⌊x / 360⌋ : ℚ)) ≤ x / 360 := Int.floor_le _
  have h2 : x / 360 < (⌊x / 360⌋ : ℚ) + 1 := Int.lt_floor_add_one _
  have hx : (360 : ℚ) * (x / 360) = x := by field_simp
  unfold fmod360
  constructor <;> nlinarith [h1, h2, hx]

lemma binIdx_range (d : ℚ) : 0 ≤ binIdx (some d) ∧ binIdx (some d) < 16 := by
  obtain ⟨h0, h1⟩ := fmod360_bounds d
  have hpos : (0 : ℚ) < 45 / 2 := by norm_num
  constructor
  · exact Int.floor_nonneg.mpr (div_nonneg h0 (le_of_lt hpos))
  · have : fmod360 d / (45 / 2 : ℚ) < 16 := by
      rw [div_lt_iff₀ hpos]; linarith
    calc binIdx (some d) = ⌊fmod360 d / (45 / 2 : ℚ)⌋ := rfl
      _ < 16 := by
        apply Int.floor_lt.mpr
        push_cast
        exact this

lemma binIdx_none_ne (i : Nat) : binIdx none ≠ (i : Int) := by
  simp only [binIdx, nanCastInt]
  have h2 : ((2 : ℤ) ^ 63) = 9223372036854775808 := by norm_num
  omega

lemma list_sum_map_add {α : Type} (l : List α) (f g : α → ℕ) :
    (l.map (fun a => f a + g a)).sum = (l.map f).sum + (l.map g).sum := by
  induction l with
  | nil => simp
  | cons a t ih => simp [ih]; omega

lemma list_sum_map_div {α : Type} (l : List α) (f : α → ℚ) (c : ℚ) :
    (l.map (fun a => f a / c)).sum = (l.map f).sum / c := by
  induction l with
  | nil => simp
  | cons a t ih => simp [ih, add_div]

lemma sum_indicator_range (n : Nat) (j : Int) :
    ((List.range n).map (fun (i : ℕ) => if j = (i : Int) then (1 : ℕ) else 0)).sum
      = if 0 ≤ j ∧ j < n then 1 else 0 := by
  induction n with
  | zero =>
    simp only [List.range_zero, List.map_nil, List.sum_nil]
    split_ifs with h
    · omega
    · rfl
  | succ n ih =>
    rw [List.range_succ, List.map_append, List.sum_append, ih]
    simp only [List.map_cons, List.map_nil, List.sum_cons, List.sum_nil]
    split_ifs <;> omega

lemma countP_binIdx_valid (degs : List (Option ℚ)) (i : Nat) :
    degs.countP (fun d => decide (binIdx d = (i : Int)))
      = (validValues degs).countP (fun d => decide (binIdx (some d) = (i : Int))) := by
  induction degs with
  | nil => simp [validValues]
  | cons a t ih =>
    cases a with
    | none =>
      simp [validValues, List.countP_cons, binIdx_none_ne i, ih]
    | some x =>
      simp [validValues, List.countP_cons, ih]

lemma sum_bin_counts_valid (l : List ℚ) :
    ((List.range 16).map
      (fun (i : ℕ) => l.countP (fun d => decide (binIdx (some d) = (i : Int))))).sum
      = l.length := by
  induction l with
  | nil => simp
  | cons x t ih =>
    obtain ⟨h0, h1⟩ := binIdx_range x
    have key : ∀ (i : ℕ),
        ((x :: t).countP (fun d => decide (binIdx (some d) = (i : Int))))
          = t.countP (fun d => decide (binIdx (some d) = (i : Int)))
            + (if binIdx (some x) = (i : Int) then 1 else 0) := by
      intro i
      rw [List.countP_cons]
      by_cases h : binIdx (some x) = (i : Int) <;> simp [h]
    rw [List.map_congr_left (fun i _ => key i), list_sum_map_add, ih,
      sum_indicator_range, List.length_cons,
      if_pos ⟨h0, by exact_mod_cast h1⟩]

lemma sum_bin_counts (degs : List (Option ℚ)) :
    ((List.range 16).map
      (fun (i : ℕ) => degs.countP (fun d => decide (binIdx d = (i : Int))))).sum
      = (validValues degs).length := by
  simp only [countP_binIdx_valid]
  exact sum_bin_counts_valid (validValues degs)

lemma rose_sum (degs : List (Option ℚ)) :
    ((direction_bins degs).map Prod.snd).sum
      = ((validValues degs).length : ℚ) / (degs.length : ℚ) := by
  unfold direction_bins
  rw [List.map_map]
  have hcomp : (Prod.snd ∘ fun i => (binLabel i, binFreq degs i))
      = fun (i : ℕ) => binFreq degs i := rfl
  rw [hcomp]
  unfold binFreq
  rw [list_sum_map_div]
  congr 1
  rw [show (fun (i : ℕ) => ((degs.countP (fun d => decide (binIdx d = (i : Int)))) : ℚ))
      = (fun (n : ℕ) => (n : ℚ)) ∘ (fun (i : ℕ) => degs.countP (fun d => decide (binIdx d = (i : Int))))
      from rfl]
  rw [← List.map_map, ← Nat.cast_list_sum, sum_bin_counts]

lemma rose_all_zero (degs : List (Option ℚ)) (h : validValues degs = []) :
    (direction_bins degs).map Prod.snd = List.replicate 16 0 := by
  have hall : ∀ d ∈ degs, d = none := by
    intro d hd
    have := List.filterMap_eq_nil_iff.mp h d hd
    simpa using this
  have hzero : ∀ (i : ℕ), binFreq degs i = 0 := by
    intro i
    unfold binFreq
    have : degs.countP (fun d => decide (binIdx d = (i : Int))) = 0 := by
      apply List.countP_eq_zero.mpr
      intro d hd
      rw [hall d hd]
      simpa using binIdx_none_ne i
    rw [this]
    simp
  unfold direction_bins
  rw [List.map_map]
  apply List.eq_replicate_iff.mpr
  constructor
  · simp
  · intro b hb
    obtain ⟨i, _, hi⟩ := List.mem_map.mp hb
    rw [← hi]
    exact hzero i

lemma mem_groupKeys_iff {freq : Freq} {rows : List Observation} {k : Nat × Nat × Nat} :
    k ∈ groupKeys freq rows ↔ ∃ o ∈ rows, rowKey freq o = some k := by
  unfold groupKeys
  rw [List.mem_insertionSort, List.mem_dedup, List.mem_filterMap]

lemma groupRows_ne_nil {freq : Freq} {rows : List Observation} {k : Nat × Nat × Nat}
    (hk : k ∈ groupKeys freq rows) : groupRows freq rows k ≠ [] := by
  obtain ⟨o, ho, hko⟩ := mem_groupKeys_iff.mp hk
  have hmem : o ∈ groupRows freq rows k := by
    unfold groupRows
    rw [List.mem_filter]
    exact ⟨ho, by simp [hko]⟩
  exact List.ne_nil_of_mem hmem

lemma filterMap_rowKey_filter (freq : Freq) (rows : List Observation) :
    (rows.filter (fun o => (rowKey freq o).isSome)).filterMap (rowKey freq)
      = rows.filterMap (rowKey freq) := by
  induction rows with
  | nil => rfl
  | cons a t ih =>
    rcases h : rowKey freq a with _ | k <;>
      simp [List.filter_cons, List.filterMap_cons, h, ih]

lemma groupRows_filter (freq : Freq) (rows : List Observation) (k : Nat × Nat × Nat) :
    groupRows freq (rows.filter (fun o => (rowKey freq o).isSome)) k
      = groupRows freq rows k := by
  unfold groupRows
  induction rows with
  | nil => rfl
  | cons a t ih =>
    rcases h : rowKey freq a with _ | k' <;>
      simp [List.filter_cons, h, ih]

/- ──────────────── period-label order helpers (claim C8) ──────────────── -/

lemma toNat_digitChar (d : Nat) (h : d < 10) : (digitChar d).toNat = 48 + d := by
  interval_cases d <;> decide

lemma pad4_codes (y : Nat) :
    (pad4 y).map Char.toNat
      = [48 + y / 1000 % 10, 48 + y / 100 % 10, 48 + y / 10 % 10, 48 + y % 10] := by
  simp [pad4, toNat_digitChar _ (Nat.mod_lt _ (by norm_num)),
    toNat_digitChar _ (Nat.mod_lt _ (by norm_num))]

lemma pad2_codes (m : Nat) :
    (pad2 m).map Char.toNat = [48 + m / 10 % 10, 48 + m % 10] := by
  simp [pad2, toNat_digitChar _ (Nat.mod_lt _ (by norm_num))]

lemma codesLt_cons (a b : Nat) (as bs : List Nat) :
    codesLt (a :: as) (b :: bs)
      = if a < b then true else if b < a then false else codesLt as bs := rfl

lemma codesLt_nil (as : List Nat) : codesLt as [] = false := by
  cases as <;> rfl

lemma codesLt_head_lt {a b : Nat} (h : a < b) (as bs : List Nat) :
    codesLt (a :: as) (b :: bs) = true := by
  rw [codesLt_cons, if_pos h]

lemma codesLt_head_eq {a : Nat} {as bs : List Nat} (h : codesLt as bs = true) :
    codesLt (a :: as) (a :: bs) = true := by
  rw [codesLt_cons, if_neg (lt_irrefl a), if_neg (lt_irrefl a)]
  exact h

lemma codes4_lt {y y' : Nat} (h : y < y') (h' : y' < 10000) :
    codesLt [48 + y / 1000 % 10, 48 + y / 100 % 10, 48 + y / 10 % 10, 48 + y % 10]
      [48 + y' / 1000 % 10, 48 + y' / 100 % 10, 48 + y' / 10 % 10, 48 + y' % 10] = true := by
  rw [codesLt_cons, codesLt_cons, codesLt_cons, codesLt_cons, codesLt_nil]
  split_ifs <;> first | rfl | omega

lemma codes2_lt {m m' : Nat} (h : m < m') (h' : m' < 100) :
    codesLt [48 + m / 10 % 10, 48 + m % 10] [48 + m' / 10 % 10, 48 + m' % 10] = true := by
  rw [codesLt_cons, codesLt_cons, codesLt_nil]
  split_ifs <;> first | rfl | omega

lemma codes7_lt {y y' m m' : Nat}
    (h : y < y' ∨ (y = y' ∧ m < m')) (hy : y' < 10000) (hm' : m' < 100) :
    codesLt
      [48 + y / 1000 % 10, 48 + y / 100 % 10, 48 + y / 10 % 10, 48 + y % 10,
        45, 48 + m / 10 % 10, 48 + m % 10]
      [48 + y' / 1000 % 10, 48 + y' / 100 % 10, 48 + y' / 10 % 10, 48 + y' % 10,
        45, 48 + m' / 10 % 10, 48 + m' % 10] = true := by
  rcases h with h | ⟨rfl, hmm⟩
  · rcases Nat.lt_trichotomy (y / 1000 % 10) (y' / 1000 % 10) with h1 | h1 | h1
    · exact codesLt_head_lt (by omega) _ _
    · rw [show 48 + y / 1000 % 10 = 48 + y' / 1000 % 10 from by omega]
      apply codesLt_head_eq
      rcases Nat.lt_trichotomy (y / 100 % 10) (y' / 100 % 10) with h2 | h2 | h2
      · exact codesLt_head_lt (by omega) _ _
      · rw [show 48 + y / 100 % 10 = 48 + y' / 100 % 10 from by omega]
        apply codesLt_head_eq
        rcases Nat.lt_trichotomy (y / 10 % 10) (y' / 10 % 10) with h3 | h3 | h3
        · exact codesLt_head_lt (by omega) _ _
        · rw [show 48 + y / 10 % 10 = 48 + y' / 10 % 10 from by omega]
          apply codesLt_head_eq
          rcases Nat.lt_trichotomy (y % 10) (y' % 10) with h4 | h4 | h4
          · exact codesLt_head_lt (by omega) _ _
          · exfalso; omega
          · exfalso; omega
        · exfalso; omega
      · exfalso; omega
    · exfalso; omega
  · apply codesLt_head_eq
    apply codesLt_head_eq
    apply codesLt_head_eq
    apply codesLt_head_eq
    apply codesLt_head_eq
    exact codes2_lt hmm hm'

lemma periodLabel_annual {y m : Nat} (h : y < 10000) :
    periodLabel Freq.annual (y, m) = String.mk (pad4 y) := by
  simp [periodLabel, h]

lemma periodLabel_monthly {y m : Nat} (h : y < 10000) :
    periodLabel Freq.monthly (y, m)
      = String.mk (pad4 y ++ [Char.ofNat 45] ++ pad2 m) := by
  simp [periodLabel, h]

lemma labelLt_annual {p q : Nat × Nat} (h : p.1 < q.1) (h' : q.1 < 10000) :
    labelLtB (periodLabel Freq.annual p) (periodLabel Freq.annual q) = true := by
  obtain ⟨y, m⟩ := p
  obtain ⟨y', m'⟩ := q
  dsimp only at h h'
  have hy : y < 10000 := lt_trans h h'
  rw [periodLabel_annual hy, periodLabel_annual h']
  unfold labelLtB
  show codesLt ((pad4 y).map Char.toNat) ((pad4 y').map Char.toNat) = true
  rw [pad4_codes, pad4_codes]
  exact codes4_lt h h'

lemma labelLt_monthly {p q : Nat × Nat}
    (h : p.1 < q.1 ∨ (p.1 = q.1 ∧ p.2 < q.2)) (hy : q.1 < 10000) (hm' : q.2 < 100) :
    labelLtB (periodLabel Freq.monthly p) (periodLabel Freq.monthly q) = true := by
  obtain ⟨y, m⟩ := p
  obtain ⟨y', m'⟩ := q
  dsimp only at h hy hm'
  have hylt : y < 10000 := by omega
  rw [periodLabel_monthly hylt, periodLabel_monthly hy]
  unfold labelLtB
  show codesLt ((pad4 y ++ [Char.ofNat 45] ++ pad2 m).map Char.toNat)
    ((pad4 y' ++ [Char.ofNat 45] ++ pad2 m').map Char.toNat) = true
  rw [List.map_append, List.map_append, List.map_append, List.map_append,
    pad4_codes, pad4_codes, pad2_codes, pad2_codes]
  have h45 : ([Char.ofNat 45].map Char.toNat) = [45] := by decide
  rw [h45]
  show codesLt
    [48 + y / 1000 % 10, 48 + y / 100 % 10, 48 + y / 10 % 10, 48 + y % 10,
      45, 48 + m / 10 % 10, 48 + m % 10]
    [48 + y' / 1000 % 10, 48 + y' / 100 % 10, 48 + y' / 10 % 10, 48 + y' % 10,
      45, 48 + m' / 10 % 10, 48 + m' % 10] = true
  exact codes7_lt h hy hm'

/-- The bound that timestamps within the input impose on every groupby key. -/
def keyBound (freq : Freq) (k : Nat × Nat × Nat) : Prop :=
  k.2.1 < 10000 ∧ k.2.2 < 100 ∧ (freq = Freq.annual → k.2.2 = 0)

lemma keyBound_of_mem {freq : Freq} {rows : List Observation} {k : Nat × Nat × Nat}
    (hyears : ∀ o ∈ rows, ∀ t, o.datetime = some t → t.year < 10000 ∧ t.month < 100)
    (hk : k ∈ groupKeys freq rows) : keyBound freq k := by
  obtain ⟨o, ho, hko⟩ := mem_groupKeys_iff.mp hk
  unfold rowKey at hko
  rcases hs : o.station with _ | s <;> rcases ht : o.datetime with _ | t <;>
    rw [hs, ht] at hko <;> simp at hko
  obtain ⟨hy, hm⟩ := hyears o ho t ht
  cases freq with
  | annual =>
    have hkk : k = (s, t.year, 0) := by
      rw [← hko]; rfl
    subst hkk
    exact ⟨hy, by norm_num, fun _ => rfl⟩
  | monthly =>
    have hkk : k = (s, t.year, t.month) := by
      rw [← hko]; rfl
    subst hkk
    exact ⟨hy, hm, by simp⟩

lemma recFor_station (fitML : List ℚ → ℚ × ℚ × ℚ) (freq : Freq) (rho : ℚ)
    (rows : List Observation) (k : Nat × Nat × Nat) :
    (recFor fitML freq rho rows k).station = k.1 := rfl

lemma recFor_period (fitML : List ℚ → ℚ × ℚ × ℚ) (freq : Freq) (rho : ℚ)
    (rows : List Observation) (k : Nat × Nat × Nat) :
    (recFor fitML freq rho rows k).period = periodLabel freq k.2 := rfl

lemma recFor_rose (fitML : List ℚ → ℚ × ℚ × ℚ) (freq : Freq) (rho : ℚ)
    (rows : List Observation) (k : Nat × Nat × Nat) :
    (recFor fitML freq rho rows k).rose
      = direction_bins ((groupRows freq rows k).map (fun o => o.wdir)) := rfl

lemma key_to_recLe (fitML : List ℚ → ℚ × ℚ × ℚ) (freq : Freq) (rho : ℚ)
    (rows : List Observation) {a b : Nat × Nat × Nat}
    (ha : keyBound freq a) (hb : keyBound freq b) (hab : keyLe a b) :
    recLe (recFor fitML freq rho rows a) (recFor fitML freq rho rows b) := by
  unfold recLe
  rw [recFor_station, recFor_station, recFor_period, recFor_period]
  unfold keyLe at hab
  rcases hab with h | ⟨hs, hp⟩
  · exact Or.inl h
  right
  refine ⟨hs, ?_⟩
  by_cases heq : a.2 = b.2
  · exact Or.inl (by rw [heq])
  right
  obtain ⟨hay, ham, haf⟩ := ha
  obtain ⟨hby, hbm, hbf⟩ := hb
  cases freq with
  | annual =>
    have ha0 : a.2.2 = 0 := haf rfl
    have hb0 : b.2.2 = 0 := hbf rfl
    have hylt : a.2.1 < b.2.1 := by
      rcases hp with h | ⟨hy, hmle⟩
      · exact h
      · exfalso
        apply heq
        exact Prod.ext hy (by omega)
    exact labelLt_annual hylt hby
  | monthly =>
    have hlt : a.2.1 < b.2.1 ∨ (a.2.1 = b.2.1 ∧ a.2.2 < b.2.2) := by
      rcases hp with h | ⟨hy, hmle⟩
      · exact Or.inl h
      · right
        refine ⟨hy, ?_⟩
        rcases Nat.lt_or_ge a.2.2 b.2.2 with h | h
        · exact h
        · exfalso
          apply heq
          exact Prod.ext hy (by omega)
    exact labelLt_monthly hlt hby hbm

/- ──────────────────────── claim theorems ──────────────────────── -/

/-- C10: `direction_bins` (via `binIdx`) first wraps every finite direction
value into `[0, 360)` by reducing it modulo 360, so the computed bin index is
always in `0..15`; a direction of exactly 360.0 is counted in bin 0 and a
direction of −10.0 in bin 15. -/
theorem C10_wraparound :
    (∀ d : ℚ, 0 ≤ fmod360 d ∧ fmod360 d < 360 ∧
        binIdx (some d) = ⌊fmod360 d / (45 / 2 : ℚ)⌋ ∧
        0 ≤ binIdx (some d) ∧ binIdx (some d) < 16) ∧
    binIdx (some 360) = 0 ∧ binIdx (some (-10)) = 15 := by
  refine ⟨fun d => ⟨(fmod360_bounds d).1, (fmod360_bounds d).2, rfl,
    (binIdx_range d).1, (binIdx_range d).2⟩, ?_, ?_⟩
  · with_unfolding_all decide
  · with_unfolding_all decide

/-- C7: `mean_power_density` equals the mean of `0.5 · ρ · v³` over the
non-absent speed values (NaN sentinel on an empty sample), and a
constant-speed sample of five observations at v = 10 with ρ = 1.225 gives
exactly 612.5. -/
theorem C7_power_density :
    (∀ (rho : ℚ) (speeds : List (Option ℚ)),
      (validValues speeds = [] → mean_power_density speeds rho = none) ∧
      (validValues speeds ≠ [] →
        mean_power_density speeds rho
          = some (((validValues speeds).map (fun v => 1 / 2 * rho * v ^ 3)).sum
              / ((validValues speeds).length : ℚ)))) ∧
    mean_power_density (List.replicate 5 (some 10)) (49 / 40) = some (1225 / 2) := by
  constructor
  · intro rho speeds
    constructor
    · intro h
      simp [mean_power_density, h]
    · intro h
      have hlen : (validValues speeds).length ≠ 0 :=
        fun hz => h (List.length_eq_zero.mp hz)
      simp only [mean_power_density, if_neg hlen]
      congr 1
      rw [show (validValues speeds).map (fun v => 1 / 2 * rho * v ^ 3)
          = (validValues speeds).map (fun v => (1 / 2 * rho) * v ^ 3) from by
        simp [mul_assoc]]
      rw [List.sum_map_mul_left, mul_div_assoc]
  · with_unfolding_all decide

/-- Witness for C7: a sample with no valid speed yields the NaN sentinel, and
a sample with one valid speed yields the mean of `0.5 · ρ · v³`. -/
theorem C7_power_density_witness :
    mean_power_density [none] (49 / 40) = none ∧
    mean_power_density [some 2, none] (49 / 40)
      = some (((validValues [some 2, none]).map
            (fun v => 1 / 2 * (49 / 40 : ℚ) * v ^ 3)).sum
          / ((validValues [some 2, none]).length : ℚ)) :=
  ⟨(C7_power_density.1 (49 / 40) [none]).1 (by with_unfolding_all decide),
   (C7_power_density.1 (49 / 40) [some 2, none]).2 (by with_unfolding_all decide)⟩

/-- C3 counterexample: on an empty observation table (no rows at all) and no
metadata, `build_atlas` still persists an atlas file — it is written with zero
rows instead of being absent, so "the run fails and persists nothing" is false
on the code. -/
theorem C3_counterexample :
    (build_atlas dummyFit Freq.annual (49 / 40) emptyDf).written = some [] ∧
    (build_atlas dummyFit Freq.annual (49 / 40) emptyDf).written ≠ none := by
  constructor
  · with_unfolding_all decide
  · with_unfolding_all decide

/-- C3 amended: on an empty input (no observations, hence no stations; no
metadata), the run completes without failing and writes an atlas file
containing zero data rows. -/
theorem C3_empty_input :
    ∀ (fitML : List ℚ → ℚ × ℚ × ℚ) (freq : Freq) (rho : ℚ) (df : DataFrame),
      df.rows = [] → (build_atlas fitML freq rho df).written = some [] := by
  intro fitML freq rho df h
  unfold build_atlas atlasRows groupKeys
  rw [h]
  rfl

/-- Witness for C3: the amended statement evaluated on the concrete empty
frame. -/
theorem C3_empty_input_witness :
    (build_atlas dummyFit Freq.annual (49 / 40) emptyDf).written = some [] :=
  C3_empty_input dummyFit Freq.annual (49 / 40) emptyDf rfl

/-- C5 counterexample: `build_atlas` mutates its input frame in place — after
the call the caller's frame has gained a `period` column, so "the input table
(its columns and values) is unchanged" is false on the code. -/
theorem C5_counterexample :
    (build_atlas dummyFit Freq.annual (49 / 40) exDf).df ≠ exDf ∧
    "period" ∈ (build_atlas dummyFit Freq.annual (49 / 40) exDf).df.columns ∧
    "period" ∉ exDf.columns := by
  refine ⟨?_, ?_, ?_⟩ <;> with_unfolding_all decide

/-- C5 amended: `build_atlas` leaves the rows (the values of all existing
columns) of the ingested observation table unchanged, but mutates the frame in
place by assigning a `period` column. -/
theorem C5_frame_effect :
    ∀ (fitML : List ℚ → ℚ × ℚ × ℚ) (freq : Freq) (rho : ℚ) (df : DataFrame),
      (build_atlas fitML freq rho df).df.rows = df.rows ∧
      df.columns ⊆ (build_atlas fitML freq rho df).df.columns ∧
      "period" ∈ (build_atlas fitML freq rho df).df.columns ∧
      (build_atlas fitML freq rho df).df.periodCol
        = some (df.rows.map (fun o => o.datetime.map (periodOf freq))) := by
  intro fitML freq rho df
  refine ⟨rfl, ?_, ?_, rfl⟩
  · unfold build_atlas
    dsimp only
    split_ifs with h
    · exact fun a ha => ha
    · exact List.subset_append_left _ _
  · unfold build_atlas
    dsimp only
    split_ifs with h
    · exact h
    · exact List.mem_append.mpr (Or.inr (by simp))

/-- C9: every summary record of the output carries exactly 16
directional-frequency columns, named `dir_` followed by the truncated
lower-bound degree of the bin, and these are exactly the `FREQ_COLS` the
viewer reads. -/
theorem C9_columns :
    (∀ (fitML : List ℚ → ℚ × ℚ × ℚ) (freq : Freq) (rho : ℚ)
        (rows : List Observation) (r : SummaryRec),
      r ∈ atlasRows fitML freq rho rows →
      r.rose.map (fun p => "dir_" ++ toString p.1) = FREQ_COLS) ∧
    FREQ_COLS
      = ["dir_0", "dir_22", "dir_45", "dir_67", "dir_90", "dir_112", "dir_135",
         "dir_157", "dir_180", "dir_202", "dir_225", "dir_247", "dir_270",
         "dir_292", "dir_315", "dir_337"] := by
  constructor
  · intro fitML freq rho rows r hr
    obtain ⟨k, hk, hrec⟩ := List.mem_map.mp hr
    rw [← hrec, recFor_rose]
    unfold direction_bins
    rw [List.map_map]
    rw [show ((fun p : Nat × ℚ => "dir_" ++ toString p.1)
        ∘ fun i => (binLabel i,
          binFreq ((groupRows freq rows k).map (fun o => o.wdir)) i))
      = fun i => "dir_" ++ toString (binLabel i) from rfl]
    decide
  · decide

/-- Witness for C9: the first emitted record of a concrete run carries
exactly the 16 viewer columns. -/
theorem C9_columns_witness :
    (recFor dummyFit Freq.annual (49 / 40) exRows (1, 2020, 0)).rose.map
        (fun p => "dir_" ++ toString p.1) = FREQ_COLS :=
  C9_columns.1 dummyFit Freq.annual (49 / 40) exRows _ (by with_unfolding_all decide)

/-- C6: with fewer than 20 valid (non-absent, strictly positive) speed samples
the Weibull fit is not attempted and both parameters are the NaN sentinel (no
error is raised); with at least 20 such samples the external
maximum-likelihood fit (called with location fixed at 0) supplies
(shape, scale). -/
theorem C6_weibull_policy :
    ∀ (fitML : List ℚ → ℚ × ℚ × ℚ) (speeds : List (Option ℚ)),
      (((validValues speeds).filter (fun x => 0 < x)).length < 20 →
        fit_weibull fitML speeds = (none, none)) ∧
      (20 ≤ ((validValues speeds).filter (fun x => 0 < x)).length →
        fit_weibull fitML speeds
          = (some (fitML ((validValues speeds).filter (fun x => 0 < x))).1,
             some (fitML ((validValues speeds).filter (fun x => 0 < x))).2.2)) ∧
      (∀ (freq : Freq) (rho : ℚ) (rows : List Observation) (k : Nat × Nat × Nat),
        ((validValues ((groupRows freq rows k).map (fun o => o.wspd))).filter
            (fun x => 0 < x)).length < 20 →
          (recFor fitML freq rho rows k).weibull_k = none ∧
          (recFor fitML freq rho rows k).weibull_c = none) := by
  intro fitML speeds
  refine ⟨?_, ?_, ?_⟩
  · intro h
    unfold fit_weibull
    rw [if_pos h]
  · intro h
    unfold fit_weibull
    rw [if_neg (by omega)]
  · intro freq rho rows k h
    have h1 : fit_weibull fitML ((groupRows freq rows k).map (fun o => o.wspd))
        = (none, none) := by
      unfold fit_weibull
      rw [if_pos h]
    constructor
    · show (fit_weibull fitML ((groupRows freq rows k).map (fun o => o.wspd))).1 = none
      rw [h1]
    · show (fit_weibull fitML ((groupRows freq rows k).map (fun o => o.wspd))).2 = none
      rw [h1]

/-- Witness for C6: one valid speed yields the sentinel pair; twenty positive
speeds trigger the fit; a group with one valid speed reports NaN for both
Weibull columns. -/
theorem C6_weibull_policy_witness :
    fit_weibull dummyFit [some 1] = (none, none) ∧
    fit_weibull dummyFit (List.replicate 20 (some 1))
      = (some (dummyFit ((validValues (List.replicate 20 (some 1))).filter
            (fun x => 0 < x))).1,
         some (dummyFit ((validValues (List.replicate 20 (some 1))).filter
            (fun x => 0 < x))).2.2) ∧
    ((recFor dummyFit Freq.annual (49 / 40) exRows (1, 2020, 0)).weibull_k = none ∧
     (recFor dummyFit Freq.annual (49 / 40) exRows (1, 2020, 0)).weibull_c = none) :=
  ⟨(C6_weibull_policy dummyFit [some 1]).1 (by with_unfolding_all decide),
   (C6_weibull_policy dummyFit (List.replicate 20 (some 1))).2.1
     (by with_unfolding_all decide),
   (C6_weibull_policy dummyFit [some 1]).2.2 Freq.annual (49 / 40) exRows
     (1, 2020, 0) (by with_unfolding_all decide)⟩

/-- C1 counterexample: a group of two observations, one of them with an absent
speed, is emitted with `n = 2` although only one non-absent speed value feeds
the aggregates — so "sample_count equals the number of non-absent speed
observations" is false on the code. -/
theorem C1_counterexample :
    (atlasRows dummyFit Freq.annual (49 / 40) exRows).map (fun r => r.n) = [2] ∧
    (validValues ((groupRows Freq.annual exRows (1, 2020, 0)).map
        (fun o => o.wspd))).length = 1 ∧
    groupKeys Freq.annual exRows = [(1, 2020, 0)] ∧
    (2 : Nat) ≠ 1 := by
  refine ⟨?_, ?_, ?_, ?_⟩ <;> with_unfolding_all decide

/-- C1 amended: for every emitted (station, period) group, the `n` field is
the total number of observations in the group — the non-absent speed count
plus the count of absent (NaN) speeds. -/
theorem C1_sample_count :
    ∀ (fitML : List ℚ → ℚ × ℚ × ℚ) (freq : Freq) (rho : ℚ)
      (rows : List Observation) (k : Nat × Nat × Nat),
      k ∈ groupKeys freq rows →
      (recFor fitML freq rho rows k).n
        = (validValues ((groupRows freq rows k).map (fun o => o.wspd))).length
          + ((groupRows freq rows k).map (fun o => o.wspd)).countP
              (fun x => x.isNone) := by
  intro fitML freq rho rows k hk
  have hn : (recFor fitML freq rho rows k).n = (groupRows freq rows k).length := rfl
  have hsum := length_validValues_add_countP
    ((groupRows freq rows k).map (fun o => o.wspd))
  rw [List.length_map] at hsum
  omega

/-- Witness for C1: the amended statement evaluated on a concrete group with
one absent speed. -/
theorem C1_sample_count_witness :
    (recFor dummyFit Freq.annual (49 / 40) exRows (1, 2020, 0)).n
      = (validValues ((groupRows Freq.annual exRows (1, 2020, 0)).map
          (fun o => o.wspd))).length
        + ((groupRows Freq.annual exRows (1, 2020, 0)).map
            (fun o => o.wspd)).countP (fun x => x.isNone) :=
  C1_sample_count dummyFit Freq.annual (49 / 40) exRows (1, 2020, 0)
    (by with_unfolding_all decide)

/-- C4 counterexample: an observation whose timestamp is present and
parseable but whose station id is absent is also dropped from every group, so
the pipeline does not skip "exactly" the observations with an
unparseable/missing timestamp. -/
theorem C4_counterexample :
    obsNoStation.datetime.isSome = true ∧
    ((groupKeys Freq.annual exRowsSkip).all
      (fun k => !((groupRows Freq.annual exRowsSkip k).contains obsNoStation)))
        = true ∧
    groupKeys Freq.annual exRowsSkip = [(1, 2020, 0)] := by
  refine ⟨?_, ?_, ?_⟩ <;> with_unfolding_all decide

/-- C4 amended: observations whose timestamp (or station id) is absent are
dropped from every group during grouping; processing continues to completion
and the emitted table is the same as if those rows had been removed from the
input (the code keeps no count of the skipped rows). -/
theorem C4_skipped_rows :
    ∀ (fitML : List ℚ → ℚ × ℚ × ℚ) (freq : Freq) (rho : ℚ)
      (rows : List Observation),
      atlasRows fitML freq rho rows
        = atlasRows fitML freq rho
            (rows.filter (fun o => (rowKey freq o).isSome)) := by
  intro fitML freq rho rows
  unfold atlasRows
  have hkeys : groupKeys freq (rows.filter (fun o => (rowKey freq o).isSome))
      = groupKeys freq rows := by
    unfold groupKeys
    rw [filterMap_rowKey_filter]
  rw [hkeys]
  apply List.map_congr_left
  intro k hk
  unfold recFor
  rw [groupRows_filter]

/-- C2 counterexample: in a group holding one valid direction (0°) and one
absent (NaN) direction, the 16 emitted frequencies sum to 1/2, not 1 — the
NaN entry is cast to an out-of-range index and stays in the normalization
denominator — so the claimed sum-to-1 invariant is false on the code. -/
theorem C2_counterexample :
    ((atlasRows dummyFit Freq.annual (49 / 40) exRows).map
        (fun r => (r.rose.map Prod.snd).sum)) = [1 / 2] ∧
    (validValues ((groupRows Freq.annual exRows (1, 2020, 0)).map
        (fun o => o.wdir))).length = 1 ∧
    ((1 : ℚ) / 2) ≠ 1 := by
  refine ⟨?_, ?_, ?_⟩ <;> with_unfolding_all decide

/-- C2 amended: each valid direction is assigned to bin
`floor((direction mod 360) / 22.5)`, but each emitted frequency is that bin's
share of the *total* direction count of the group (absent directions
included), so the 16 frequencies sum to `valid / total`; the sum is 1 exactly
when every direction in the group is valid, and all 16 frequencies are 0 when
the group has no valid direction. -/
theorem C2_direction_frequencies :
    ∀ (fitML : List ℚ → ℚ × ℚ × ℚ) (freq : Freq) (rho : ℚ)
      (rows : List Observation) (k : Nat × Nat × Nat),
      k ∈ groupKeys freq rows →
      (∀ i : ℕ,
        binFreq ((groupRows freq rows k).map (fun o => o.wdir)) i
          = (((validValues ((groupRows freq rows k).map (fun o => o.wdir))).countP
              (fun d => decide (binIdx (some d) = (i : Int)))) : ℚ)
            / (((groupRows freq rows k).map (fun o => o.wdir)).length : ℚ)) ∧
      ((recFor fitML freq rho rows k).rose.map Prod.snd).sum
        = ((validValues ((groupRows freq rows k).map (fun o => o.wdir))).length : ℚ)
          / (((groupRows freq rows k).map (fun o => o.wdir)).length : ℚ) ∧
      (((groupRows freq rows k).map (fun o => o.wdir)).countP (fun x => x.isNone) = 0 →
        ((recFor fitML freq rho rows k).rose.map Prod.snd).sum = 1) ∧
      (validValues ((groupRows freq rows k).map (fun o => o.wdir)) = [] →
        (recFor fitML freq rho rows k).rose.map Prod.snd = List.replicate 16 0) := by
  intro fitML freq rho rows k hk
  refine ⟨?_, ?_, ?_, ?_⟩
  · intro i
    unfold binFreq
    rw [countP_binIdx_valid]
  · rw [recFor_rose]
    exact rose_sum _
  · intro h0
    rw [recFor_rose, rose_sum]
    have hsum := length_validValues_add_countP
      ((groupRows freq rows k).map (fun o => o.wdir))
    rw [h0] at hsum
    have hne : (groupRows freq rows k).map (fun o => o.wdir) ≠ [] := by
      intro hnil
      exact groupRows_ne_nil hk (List.map_eq_nil_iff.mp hnil)
    have hlen : ((groupRows freq rows k).map (fun o => o.wdir)).length ≠ 0 :=
      fun hz => hne (List.length_eq_zero.mp hz)
    have hL : ((((groupRows freq rows k).map (fun o => o.wdir)).length : ℚ)) ≠ 0 :=
      Nat.cast_ne_zero.mpr hlen
    rw [show (validValues ((groupRows freq rows k).map (fun o => o.wdir))).length
        = ((groupRows freq rows k).map (fun o => o.wdir)).length from by omega]
    exact div_self hL
  · intro hvalid
    rw [recFor_rose]
    exact rose_all_zero _ hvalid

/-- Witness for C2: the amended frequency-sum identity evaluated on a concrete
group with one valid and one absent direction. -/
theorem C2_direction_frequencies_witness :
    ((recFor dummyFit Freq.annual (49 / 40) exRows (1, 2020, 0)).rose.map
        Prod.snd).sum
      = ((validValues ((groupRows Freq.annual exRows (1, 2020, 0)).map
            (fun o => o.wdir))).length : ℚ)
        / (((groupRows Freq.annual exRows (1, 2020, 0)).map
            (fun o => o.wdir)).length : ℚ) :=
  (C2_direction_frequencies dummyFit Freq.annual (49 / 40) exRows (1, 2020, 0)
    (by with_unfolding_all decide)).2.1

/-- C8: the rows of the persisted atlas table are sorted by station id and
then by period label (for the calendar years and months a parsed timestamp can
carry, below 10000 and 100 respectively), and re-running the pure pipeline on
identical input and configuration reproduces the identical table. -/
theorem C8_ordering :
    ∀ (fitML : List ℚ → ℚ × ℚ × ℚ) (freq : Freq) (rho : ℚ)
      (rows : List Observation),
      (∀ o ∈ rows, ∀ t : Timestamp, o.datetime = some t →
        t.year < 10000 ∧ t.month < 100) →
      atlasRows fitML freq rho rows = atlasRows fitML freq rho rows ∧
      List.Sorted recLe (atlasRows fitML freq rho rows) := by
  intro fitML freq rho rows hyears
  refine ⟨rfl, ?_⟩
  unfold atlasRows
  apply List.pairwise_map.mpr
  have hsorted : List.Sorted keyLe (groupKeys freq rows) := by
    unfold groupKeys
    exact List.sorted_insertionSort keyLe _
  apply List.Pairwise.imp_of_mem ?_ hsorted
  intro a b ha hb hab
  exact key_to_recLe fitML freq rho rows
    (keyBound_of_mem hyears ha) (keyBound_of_mem hyears hb) hab

/-- Rows used to evaluate the ordering claim: two stations out of input
order, monthly periods. -/
def exRowsSorted : List Observation :=
  [⟨some 2, some ⟨2021, 5⟩, some 1, some 1⟩,
   ⟨some 1, some ⟨2020, 12⟩, none, none⟩,
   ⟨some 1, some ⟨2020, 3⟩, some 7, some 90⟩]

/-- Witness for C8: the output of a concrete three-row, two-station monthly
run is sorted by station id and then period label. -/
theorem C8_ordering_witness :
    List.Sorted recLe (atlasRows dummyFit Freq.monthly 1 exRowsSorted) :=
  (C8_ordering dummyFit Freq.monthly 1 exRowsSorted (by
    intro o ho t ht
    fin_cases ho <;>
      (dsimp only at ht; injection ht with h; subst h;
        exact ⟨by decide, by decide⟩))).2

end WindAtlas
